import Mathlib

/-!
Verification model of the per-guild music player in `bot.py`.

The Python source is asyncio code running on a single-threaded cooperative
event loop.  We embed it as a small-step state machine: each `Act` is one
atomic segment of execution (code between two suspension points of the event
loop, or one external command whose body contains no effective suspension,
or one environment transition of the voice collaborator).  The shared state
of one `MusicPlayer`, together with the voice-client state of its guild and
the trace of calls issued to the voice collaborator, forms `GState`.

Correspondence with the source (`src/bot.py`):
  * `Track`                  — the `Track` dataclass (lines 49-54);
  * `GState.queue`           — `self.queue` (an `asyncio.Queue`), as a FIFO list;
  * `GState.now_playing`     — `self.now_playing`;
  * `GState.tasks`           — the history of loop tasks created by
                               `asyncio.create_task(self._player_loop())`; the
                               Python attribute `self._player_task` always
                               references the last element; `TaskPhase` is the
                               program counter of one `_player_loop` coroutine
                               at its suspension points;
  * `GState.stopped`         — the `self._stopped` event;
  * `GState.voice`           — what `self.guild.voice_client` reports
                               (`None`-ness, `is_connected()`, `is_playing()`);
  * `GState.events`          — the calls handed to the voice collaborator:
                               `vc.play(...)`, `vc.stop()`, `vc.disconnect()`.

`stepTask` is the transcription of `_player_loop` (lines 109-132), one atomic
segment per application; `startP`, `stopP`, `enqueueP` transcribe `start`
(87-90), `stop` (92-103) and `enqueue` (105-107), each of which runs without
an effective suspension point and is therefore a single atomic action.
`get_player` (139-144) is the registry, modelled with an allocation serial so
that Python object identity is expressible.
-/

/-- The `Track` dataclass: immutable resolved track (bot.py lines 49-54). -/
structure Track where
  title : String
  url : String
  stream_url : String
  requester_id : Nat
deriving DecidableEq, Repr

/-- What `self.guild.voice_client` reports: whether the attribute is non-`None`,
`is_connected()`, and `is_playing()`. -/
structure Voice where
  hasVc : Bool
  connected : Bool
  playing : Bool
deriving DecidableEq, Repr

/-- Calls issued by the player to the voice collaborator. -/
inductive Ev where
  /-- `vc.play(source, ...)` for the given track (line 129). -/
  | play (t : Track)
  /-- `vc.stop()` issued from `MusicPlayer.stop` (line 95). -/
  | stopAudio
  /-- `vc.disconnect(force=False)` from the idle-timeout branch (line 116). -/
  | disconnect
deriving DecidableEq, Repr

/-- Program counter of one `_player_loop` coroutine, at its suspension points.
`loopTop` is a task that is scheduled but has not yet run (or has just come
back to the `while` header and is about to suspend in `wait_for`);
`waiting idle` is suspension inside `asyncio.wait_for(self.queue.get(), 300)`
with `idle` time units elapsed; `polling t` is suspension in
`asyncio.sleep(1)` of the is-playing poll while `t` occupies `now_playing`;
`done` is a finished task (returned, or cancellation delivered). -/
inductive TaskPhase where
  | loopTop
  | waiting (idle : Nat)
  | polling (t : Track)
  | done
deriving DecidableEq, Repr

/-- One loop task: its program counter and whether `Task.cancel()` has been
requested but not yet delivered. -/
structure TaskRec where
  phase : TaskPhase
  cancelReq : Bool
deriving DecidableEq, Repr

/-- Whole observable state: one player's fields, the guild's voice-client
state, and the trace of voice-collaborator calls. -/
structure GState where
  queue : List Track
  now_playing : Option Track
  tasks : List TaskRec
  stopped : Bool
  voice : Voice
  events : List Ev
deriving DecidableEq, Repr

/-- The idle timeout of `asyncio.wait_for(self.queue.get(), timeout=300)`. -/
def IDLE_TIMEOUT : Nat := 300

/-- Whether a task record is finished (`Task.done()` in Python). -/
def isDone (tr : TaskRec) : Bool :=
  match tr.phase with
  | .done => true
  | _ => false

/-- `self._player_task is None or self._player_task.done()`: the guard of
`start` (line 88), evaluated on the task-creation history whose last element
is the current `_player_task` reference. -/
def lastDone : List TaskRec → Bool
  | [] => true
  | [tr] => isDone tr
  | _ :: rest => lastDone rest

/-- `self._player_task.cancel()` (line 103): request cancellation of the
referenced (last-created) task; cancelling an already finished task is a
no-op. -/
def cancelLast : List TaskRec → List TaskRec
  | [] => []
  | [tr] => [if isDone tr then tr else { tr with cancelReq := true }]
  | tr :: rest => tr :: cancelLast rest

/-- One atomic segment of `_player_loop` (lines 109-132), from the task's
current suspension point to the next one.  A pending cancellation is
delivered first (the `CancelledError` propagates, so no cleanup line runs).
From `waiting` with a queued track, lines 118-131 run without suspension:
set `now_playing`, re-read the voice client, either discard (no connection),
or call `vc.play` and enter the poll; the poll condition
`vc.is_playing() and not self._stopped.is_set()` is checked before the first
sleep.  From `waiting` with an empty queue, time advances one unit; on
timeout the branch of lines 113-117 runs and the loop breaks.  From
`polling`, the sleep returns and the poll condition is re-checked; on exit
`now_playing` is cleared and the `while` condition is re-examined. -/
def stepTask (s : GState) (tr : TaskRec) : GState × TaskRec :=
  if isDone tr then (s, tr)
  else if tr.cancelReq then (s, { tr with phase := .done })
  else
    match tr.phase with
    | .done => (s, tr)
    | .loopTop =>
      if s.stopped then (s, { tr with phase := .done })
      else (s, { tr with phase := .waiting 0 })
    | .waiting idle =>
      match s.queue with
      | t :: rest =>
        if s.voice.hasVc && s.voice.connected then
          let s1 : GState :=
            { s with queue := rest,
                     voice := { s.voice with playing := true },
                     events := s.events ++ [Ev.play t] }
          if s.stopped then
            ({ s1 with now_playing := none }, { tr with phase := .done })
          else
            ({ s1 with now_playing := some t }, { tr with phase := .polling t })
        else
          if s.stopped then
            ({ s with queue := rest, now_playing := none },
             { tr with phase := .done })
          else
            ({ s with queue := rest, now_playing := none },
             { tr with phase := .waiting 0 })
      | [] =>
        if IDLE_TIMEOUT ≤ idle + 1 then
          if s.voice.hasVc && !s.voice.playing then
            ({ s with voice := ⟨false, false, false⟩,
                      events := s.events ++ [Ev.disconnect] },
             { tr with phase := .done })
          else (s, { tr with phase := .done })
        else (s, { tr with phase := .waiting (idle + 1) })
    | .polling _ =>
      if s.voice.playing && !s.stopped then (s, tr)
      else
        if s.stopped then
          ({ s with now_playing := none }, { tr with phase := .done })
        else
          ({ s with now_playing := none }, { tr with phase := .waiting 0 })

/-- The scheduler gives loop task `i` one step; an out-of-range index (no such
task) does nothing. -/
def applyRun (s : GState) (i : Nat) : GState :=
  match s.tasks[i]? with
  | none => s
  | some tr =>
    let p := stepTask s tr
    { p.1 with tasks := s.tasks.set i p.2 }

/-- `MusicPlayer.start` (lines 87-90): if the referenced task is absent or
done, clear `_stopped` and create a fresh loop task; otherwise do nothing. -/
def startP (s : GState) : GState :=
  if lastDone s.tasks then
    { s with stopped := false, tasks := s.tasks ++ [⟨.loopTop, false⟩] }
  else s

/-- `MusicPlayer.enqueue` (lines 105-107): append to the queue, then `start`. -/
def enqueueP (t : Track) (s : GState) : GState :=
  startP { s with queue := s.queue ++ [t] }

/-- `MusicPlayer.stop` (lines 92-103): set `_stopped`; call `vc.stop()` if a
voice client exists and is playing (which halts the audio, so the collaborator
stops reporting playback); drain the queue; cancel the referenced task.  The
body has no effective suspension point, so it is one atomic action.  Note
that it never assigns `self.now_playing`. -/
def stopP (s : GState) : GState :=
  let s2 : GState :=
    if s.voice.hasVc && s.voice.playing then
      { s with stopped := true,
               voice := { s.voice with playing := false },
               events := s.events ++ [Ev.stopAudio] }
    else { s with stopped := true }
  { s2 with queue := [], tasks := cancelLast s2.tasks }

/-- Atomic actions: the three player operations, a scheduler step of loop
task `i`, and environment transitions of the voice collaborator (a track
finishing or failing mid-stream, the guild gaining a fresh voice connection,
the connection dying while the client object remains, and the client object
going away entirely). -/
inductive Act where
  | enqueue (t : Track)
  | start
  | stop
  | runTask (i : Nat)
  | finishTrack
  | connectVoice
  | loseConn
  | dropVoice
deriving DecidableEq, Repr

/-- The global transition function. -/
def step (s : GState) : Act → GState
  | .enqueue t => enqueueP t s
  | .start => startP s
  | .stop => stopP s
  | .runTask i => applyRun s i
  | .finishTrack => { s with voice := { s.voice with playing := false } }
  | .connectVoice => { s with voice := ⟨true, true, false⟩ }
  | .loseConn => { s with voice := { s.voice with connected := false, playing := false } }
  | .dropVoice => { s with voice := ⟨false, false, false⟩ }

/-- A freshly constructed `MusicPlayer` (lines 79-85): empty queue, nothing
playing, no task, `_stopped` unset; no voice client yet. -/
def init : GState :=
  { queue := [], now_playing := none, tasks := [], stopped := false,
    voice := ⟨false, false, false⟩, events := [] }

/-- Run a sequence of atomic actions from the initial state. -/
def exec (acts : List Act) : GState :=
  acts.foldl step init

/-- Project a collaborator call to the track it plays, if it is a `play`. -/
def evPlayTrack : Ev → Option Track
  | .play t => some t
  | _ => none

/-- The tracks handed to the voice collaborator for playback, in order. -/
def played (s : GState) : List Track :=
  s.events.filterMap evPlayTrack

/-- The tracks enqueued by a sequence of actions, in order. -/
def enqueuedOf (acts : List Act) : List Track :=
  acts.filterMap (fun a => match a with | .enqueue t => some t | _ => none)

/-- Whether a collaborator call is a `disconnect`. -/
def isDisc : Ev → Bool
  | .disconnect => true
  | _ => false

/-- Number of `disconnect` calls in a trace. -/
def dCount (evs : List Ev) : Nat :=
  (evs.filter isDisc).length

/-- Number of loop tasks that are currently alive (created and not finished). -/
def liveCount (ts : List TaskRec) : Nat :=
  (ts.filter (fun tr => !(isDone tr))).length

/-- All tasks except possibly the last (the currently referenced one) are
finished — the inductive invariant behind "at most one live loop". -/
def okTasks : List TaskRec → Prop
  | [] => True
  | [_] => True
  | tr :: rest => isDone tr = true ∧ okTasks rest

/-- A registry entry: the identity of a `MusicPlayer` object (allocation
serial) together with its construction-time state. -/
structure RegEntry where
  serial : Nat
  state : GState
deriving DecidableEq, Repr

/-- The module-level `players` dict (line 136), with an allocation counter so
that Python object identity is expressible: two lookups return the identical
object iff they return the same serial. -/
structure Registry where
  table : List (Nat × RegEntry)
  nextSerial : Nat
deriving DecidableEq, Repr

/-- `get_player` (lines 139-144): return the guild's player, or construct a
fresh `MusicPlayer` and store it. -/
def get_player (g : Nat) (r : Registry) : RegEntry × Registry :=
  match r.table.lookup g with
  | some e => (e, r)
  | none =>
    let e : RegEntry := ⟨r.nextSerial, init⟩
    (e, { table := r.table ++ [(g, e)], nextSerial := r.nextSerial + 1 })

/-- Sample tracks for concrete runs. -/
def tA : Track := ⟨"A", "urlA", "streamA", 1⟩

def tB : Track := ⟨"B", "urlB", "streamB", 1⟩

def tC : Track := ⟨"C", "urlC", "streamC", 2⟩

def tD : Track := ⟨"D", "urlD", "streamD", 2⟩

/-- The FIFO scenario: enqueue A, B, C with a connected voice collaborator
that reports each track as finishing right after it starts. -/
def scenarioC1 : List Act :=
  [.connectVoice, .enqueue tA, .enqueue tB, .enqueue tC,
   .runTask 0, .runTask 0, .finishTrack, .runTask 0,
   .runTask 0, .finishTrack, .runTask 0,
   .runTask 0, .finishTrack, .runTask 0]

/-- The run behind the C2 counterexample: connect, enqueue A, let the loop
pick A up and start playing it, then call `stop()` while A is playing. -/
def cexC2 : List Act :=
  [.connectVoice, .enqueue tA, .runTask 0, .runTask 0, .stop]

/-- The run behind the C3 counterexample: the loop starts playing A, then the
collaborator finishes the track before the loop's next one-second poll. -/
def cexC3 : List Act :=
  [.connectVoice, .enqueue tA, .runTask 0, .runTask 0, .finishTrack]

/-- A state whose single loop task is suspended in
`asyncio.wait_for(self.queue.get(), 300)` over an empty queue with `k` time
units of idleness elapsed, stop not requested and no cancellation pending. -/
def waitS (np : Option Track) (evs : List Ev) (v : Voice) (k : Nat) : GState :=
  { queue := [], now_playing := np, tasks := [⟨.waiting k, false⟩],
    stopped := false, voice := v, events := evs }

/-- One scheduler step of the (single) loop task. -/
def runOnce (s : GState) : GState := step s (Act.runTask 0)

/-- A state whose single loop task is suspended in the queue wait while track
`t` sits at the head of the queue. -/
def recvS (np : Option Track) (evs : List Ev) (v : Voice) (k : Nat)
    (t : Track) (rest : List Track) : GState :=
  { queue := t :: rest, now_playing := np, tasks := [⟨.waiting k, false⟩],
    stopped := false, voice := v, events := evs }

/-- A state in which the loop task has not yet run while stop is requested. -/
def s8a : GState :=
  { queue := [], now_playing := none, tasks := [⟨.loopTop, false⟩],
    stopped := true, voice := ⟨true, true, false⟩, events := [] }

/-- A state in which the loop is polling track A whose playback just failed
mid-stream (the collaborator no longer reports playing), with track B queued. -/
def s8b : GState :=
  { queue := [tB], now_playing := some tA, tasks := [⟨.polling tA, false⟩],
    stopped := false, voice := ⟨true, true, false⟩, events := [Ev.play tA] }

/-- Shared prefix of the two C9 runs: connect, enqueue A, and let the loop
start playing A. -/
def commonC9 : List Act := [.connectVoice, .enqueue tA, .runTask 0, .runTask 0]

/-- First C9 run: `stop()` then immediately `enqueue(D)` before the event loop
finalizes the cancelled task, then the scheduler runs. -/
def run1C9 : List Act := commonC9 ++ [.stop, .enqueue tD, .runTask 0, .runTask 0, .runTask 0]

/-- Second C9 run: the same `stop(); enqueue(D)`, but the event loop delivers
the pending cancellation (finishing the old task) between the two calls. -/
def run2C9 : List Act := commonC9 ++ [.stop, .runTask 0, .enqueue tD, .runTask 1, .runTask 1]

theorem okTasks_cons2 (a b : TaskRec) (l : List TaskRec) :
    okTasks (a :: b :: l) ↔ isDone a = true ∧ okTasks (b :: l) := Iff.rfl

theorem okTasks_lastDone_all :
    ∀ (ts : List TaskRec), okTasks ts → lastDone ts = true →
      ∀ tr ∈ ts, isDone tr = true := by
  intro ts
  induction ts with
  | nil => intro _ _ tr htr; cases htr
  | cons a rest ih =>
    cases rest with
    | nil =>
      intro _ hlast tr htr
      rcases List.mem_singleton.mp htr with rfl
      exact hlast
    | cons b l =>
      intro hok hlast tr htr
      rcases (okTasks_cons2 a b l).mp hok with ⟨ha, hrest⟩
      rcases List.mem_cons.mp htr with rfl | htr'
      · exact ha
      · exact ih hrest hlast tr htr'

theorem okTasks_concat :
    ∀ (ts : List TaskRec) (x : TaskRec),
      (∀ tr ∈ ts, isDone tr = true) → okTasks (ts ++ [x]) := by
  intro ts
  induction ts with
  | nil => intro x _; exact trivial
  | cons a rest ih =>
    intro x h
    cases rest with
    | nil =>
      exact (okTasks_cons2 a x []).mpr ⟨h a (List.mem_cons_self a []), trivial⟩
    | cons b l =>
      refine (okTasks_cons2 a b (l ++ [x])).mpr ?_
      refine ⟨h a (List.mem_cons_self a _), ?_⟩
      exact ih x (fun tr htr => h tr (List.mem_cons_of_mem a htr))

theorem okTasks_set :
    ∀ (ts : List TaskRec) (i : Nat) (v : TaskRec),
      okTasks ts → (isDone v = true ∨ i + 1 = ts.length) → okTasks (ts.set i v) := by
  intro ts
  induction ts with
  | nil => intro i v _ _; simp [List.set]; exact trivial
  | cons a rest ih =>
    intro i v hok hv
    cases i with
    | zero =>
      cases rest with
      | nil => exact trivial
      | cons b l =>
        rcases hv with hv | hv
        · exact (okTasks_cons2 v b l).mpr ⟨hv, ((okTasks_cons2 a b l).mp hok).2⟩
        · simp at hv
    | succ j =>
      cases rest with
      | nil => exact trivial
      | cons b l =>
        rcases (okTasks_cons2 a b l).mp hok with ⟨ha, hrest⟩
        have hv' : isDone v = true ∨ j + 1 = (b :: l).length := by
          rcases hv with hv | hv
          · exact Or.inl hv
          · right; simpa using hv
        have := ih j v hrest hv'
        cases l with
        | nil =>
          cases j with
          | zero => exact (okTasks_cons2 a v []).mpr ⟨ha, trivial⟩
          | succ k => exact (okTasks_cons2 a b []).mpr ⟨ha, trivial⟩
        | cons c m =>
          cases j with
          | zero => exact (okTasks_cons2 a v (c :: m)).mpr ⟨ha, this⟩
          | succ k =>
            exact (okTasks_cons2 a b ((c :: m).set k v)).mpr ⟨ha, this⟩

theorem okTasks_live_last :
    ∀ (ts : List TaskRec) (i : Nat) (tr : TaskRec),
      okTasks ts → ts[i]? = some tr → isDone tr = false → i + 1 = ts.length := by
  intro ts
  induction ts with
  | nil => intro i tr _ h _; simp at h
  | cons a rest ih =>
    intro i tr hok hget hlive
    cases i with
    | zero =>
      simp at hget
      subst hget
      cases rest with
      | nil => rfl
      | cons b l =>
        rcases (okTasks_cons2 a b l).mp hok with ⟨ha, _⟩
        rw [ha] at hlive; cases hlive
    | succ j =>
      cases rest with
      | nil => simp at hget
      | cons b l =>
        rcases (okTasks_cons2 a b l).mp hok with ⟨_, hrest⟩
        have := ih j tr hrest (by simpa using hget) hlive
        simpa using this

theorem stepTask_of_done (s : GState) (tr : TaskRec) (h : isDone tr = true) :
    stepTask s tr = (s, tr) := by
  simp [stepTask, h]

theorem okTasks_cancelLast :
    ∀ (ts : List TaskRec), okTasks ts → okTasks (cancelLast ts) := by
  intro ts
  induction ts with
  | nil => intro h; exact h
  | cons a rest ih =>
    intro hok
    cases rest with
    | nil => simp only [cancelLast]; split <;> exact trivial
    | cons b l =>
      rcases (okTasks_cons2 a b l).mp hok with ⟨ha, hrest⟩
      have h2 := ih hrest
      show okTasks (a :: cancelLast (b :: l))
      cases l with
      | nil =>
        simp only [cancelLast]
        split <;> exact (okTasks_cons2 a _ []).mpr ⟨ha, trivial⟩
      | cons c m =>
        show okTasks (a :: b :: cancelLast (c :: m))
        exact (okTasks_cons2 a b _).mpr ⟨ha, h2⟩

theorem okTasks_step (s : GState) (a : Act) (h : okTasks s.tasks) :
    okTasks (step s a).tasks := by
  have hstart : ∀ s' : GState, okTasks s'.tasks → okTasks (startP s').tasks := by
    intro s' h'
    unfold startP
    split
    · exact okTasks_concat s'.tasks _ (okTasks_lastDone_all s'.tasks h' (by assumption))
    · exact h'
  cases a with
  | enqueue t => exact hstart _ h
  | start => exact hstart _ h
  | stop =>
    show okTasks (stopP s).tasks
    unfold stopP
    split <;> exact okTasks_cancelLast _ h
  | runTask i =>
    show okTasks (applyRun s i).tasks
    unfold applyRun
    split
    · exact h
    · rename_i tr hget
      by_cases hd : isDone tr = true
      · rw [stepTask_of_done s tr hd]
        exact okTasks_set _ _ _ h (Or.inl hd)
      · have hlive : isDone tr = false := by
          cases hdd : isDone tr
          · rfl
          · exact absurd hdd hd
        exact okTasks_set _ _ _ h
          (Or.inr (okTasks_live_last s.tasks i tr h hget hlive))
  | finishTrack => exact h
  | connectVoice => exact h
  | loseConn => exact h
  | dropVoice => exact h

theorem okTasks_liveCount :
    ∀ (ts : List TaskRec), okTasks ts → liveCount ts ≤ 1 := by
  intro ts
  induction ts with
  | nil => intro _; decide
  | cons a rest ih =>
    intro hok
    cases rest with
    | nil =>
      show liveCount [a] ≤ 1
      simp only [liveCount, List.filter]
      cases h : !(isDone a) <;> simp
    | cons b l =>
      rcases (okTasks_cons2 a b l).mp hok with ⟨ha, hrest⟩
      have : liveCount (a :: b :: l) = liveCount (b :: l) := by
        simp [liveCount, List.filter_cons, ha]
      rw [this]
      exact ih hrest

theorem foldl_inv (P : GState → Prop) (h0 : P init)
    (hs : ∀ s a, P s → P (step s a)) : ∀ acts, P (exec acts) := by
  have key : ∀ (acts : List Act) (s : GState), P s → P (List.foldl step s acts) := by
    intro acts
    induction acts with
    | nil => intro s hP; exact hP
    | cons a as ih => intro s hP; exact ih (step s a) (hs s a hP)
  intro acts
  exact key acts init h0

/-- Claim C4: at most one playback loop task is ever active per Player at any
time, for every interleaving of enqueue/start/stop calls, and `start` called
while a loop is already active (the referenced task not done) is a no-op that
never creates a second concurrent loop. -/
theorem c4_single_loop : ∀ (acts : List Act),
    liveCount (exec acts).tasks ≤ 1
    ∧ (lastDone (exec acts).tasks = false → step (exec acts) Act.start = exec acts) := by
  intro acts
  constructor
  · exact okTasks_liveCount _
      (foldl_inv (fun s => okTasks s.tasks) trivial okTasks_step acts)
  · intro h
    simp [step, startP, h]

theorem c4_single_loop_witness :
    liveCount (exec [Act.enqueue tA]).tasks ≤ 1
    ∧ step (exec [Act.enqueue tA]) Act.start = exec [Act.enqueue tA] := by
  exact ⟨(c4_single_loop [Act.enqueue tA]).1,
         (c4_single_loop [Act.enqueue tA]).2 (by decide)⟩

theorem enqueuedOf_cons (a : Act) (as : List Act) :
    enqueuedOf (a :: as) = enqueuedOf [a] ++ enqueuedOf as := by
  cases a <;> simp [enqueuedOf]

theorem stepTask_fifo (s : GState) (tr : TaskRec) :
    List.Sublist
      ((stepTask s tr).1.events.filterMap evPlayTrack ++ (stepTask s tr).1.queue)
      (s.events.filterMap evPlayTrack ++ s.queue) := by
  unfold stepTask
  repeat' split
  all_goals
    simp_all [List.filterMap_append, evPlayTrack, List.sublist_cons_self]

theorem step_fifo (s : GState) (a : Act) :
    List.Sublist (played (step s a) ++ (step s a).queue)
      ((played s ++ s.queue) ++ enqueuedOf [a]) := by
  cases a with
  | enqueue t =>
    show List.Sublist (played (enqueueP t s) ++ (enqueueP t s).queue) _
    unfold enqueueP startP
    split <;> simp [played, enqueuedOf, List.append_assoc]
  | start =>
    show List.Sublist (played (startP s) ++ (startP s).queue) _
    unfold startP
    split <;> simp [played, enqueuedOf]
  | stop =>
    show List.Sublist (played (stopP s) ++ (stopP s).queue) _
    unfold stopP
    split <;>
      simp [played, enqueuedOf, List.filterMap_append, evPlayTrack,
            List.sublist_append_left]
  | runTask i =>
    show List.Sublist (played (applyRun s i) ++ (applyRun s i).queue) _
    unfold applyRun
    split
    · simp [enqueuedOf]
    · have h := stepTask_fifo s
      simpa [played, enqueuedOf] using h _
  | finishTrack => simp [step, played, enqueuedOf]
  | connectVoice => simp [step, played, enqueuedOf]
  | loseConn => simp [step, played, enqueuedOf]
  | dropVoice => simp [step, played, enqueuedOf]

theorem exec_fifo :
    ∀ (acts : List Act) (s : GState),
      List.Sublist (played (List.foldl step s acts) ++ (List.foldl step s acts).queue)
        ((played s ++ s.queue) ++ enqueuedOf acts) := by
  intro acts
  induction acts with
  | nil => intro s; simp [enqueuedOf]
  | cons a as ih =>
    intro s
    have h1 := ih (step s a)
    have h2 := (step_fifo s a).append_right (enqueuedOf as)
    have h3 := h1.trans h2
    rw [List.foldl_cons]
    refine h3.trans ?_
    rw [enqueuedOf_cons a as, List.append_assoc]

/-- Claim C1: for every sequence of enqueue calls on one Player, the tracks
handed to the voice collaborator are exactly an in-order selection of the
enqueued tracks (FIFO: no reordering, no duplication, nothing fabricated —
the play trace followed by the still-queued tracks is a sublist of the
enqueue trace); in particular, enqueueing A, B, C with a connected voice
collaborator that reports each track as instantly finishing yields observed
play order A, B, C with the queue ending empty and nothing left playing. -/
theorem c1_fifo_order :
    (∀ acts : List Act,
        List.Sublist (played (exec acts) ++ (exec acts).queue) (enqueuedOf acts))
    ∧ played (exec scenarioC1) = [tA, tB, tC]
    ∧ (exec scenarioC1).queue = []
    ∧ (exec scenarioC1).now_playing = none := by
  refine ⟨?_, by decide, by decide, by decide⟩
  intro acts
  have h := exec_fifo acts init
  simpa [exec, played, init] using h

theorem cancelLast_cons2 (a b : TaskRec) (l : List TaskRec) :
    cancelLast (a :: b :: l) = a :: cancelLast (b :: l) := rfl

theorem cancelLast_shape (b : TaskRec) (l : List TaskRec) :
    ∃ y ys, cancelLast (b :: l) = y :: ys := by
  cases l with
  | nil => exact ⟨_, [], rfl⟩
  | cons c m => exact ⟨b, cancelLast (c :: m), rfl⟩

theorem cancelLast_idem : ∀ ts : List TaskRec, cancelLast (cancelLast ts) = cancelLast ts := by
  intro ts
  induction ts with
  | nil => rfl
  | cons a rest ih =>
    cases rest with
    | nil =>
      show cancelLast (cancelLast [a]) = cancelLast [a]
      by_cases h : isDone a = true
      · simp [cancelLast, h]
      · have h2 : isDone { a with cancelReq := true } = isDone a := rfl
        simp [cancelLast, h, h2]
    | cons b l =>
      obtain ⟨y, ys, hys⟩ := cancelLast_shape b l
      rw [cancelLast_cons2, hys, cancelLast_cons2, ← hys, ih]

/-- Claim C2 counterexample: after `stop()` returns while track A is playing,
the queue is drained but `now_playing` still holds A — `stop` never assigns
`now_playing`, and the loop task is cancelled at its sleep, so the clearing
line 132 never runs; even after the cancellation is delivered (one more
scheduler step) `now_playing` is still A.  This falsifies the claim that
`now_playing` is cleared to empty after `stop()` returns. -/
theorem c2_stop_counterexample :
    (exec cexC2).queue = []
    ∧ (exec cexC2).now_playing = some tA
    ∧ (exec cexC2).now_playing ≠ none
    ∧ (exec (cexC2 ++ [Act.runTask 0])).now_playing = some tA := by
  exact ⟨by decide, by decide, by decide, by decide⟩

/-- Claim C2 (amended): after `stop()` returns, the Player's queue is empty
(all queued tracks drained and discarded), but `now_playing` is left exactly
as it was (stop never clears it; it stays set if a track was mid-playback);
calling `stop()` again when the Player is already stopped changes nothing
(idempotent no-op). -/
theorem c2_stop_amended : ∀ s : GState,
    (step s Act.stop).queue = []
    ∧ (step s Act.stop).now_playing = s.now_playing
    ∧ step (step s Act.stop) Act.stop = step s Act.stop := by
  intro s
  refine ⟨?_, ?_, ?_⟩
  · show (stopP s).queue = []
    unfold stopP
    split <;> rfl
  · show (stopP s).now_playing = s.now_playing
    unfold stopP
    split <;> rfl
  · show stopP (stopP s) = stopP s
    unfold stopP
    by_cases h : (s.voice.hasVc && s.voice.playing) = true <;>
      simp [h, cancelLast_idem]

/-- Claim C3 counterexample: a reachable state in which `now_playing` holds
track A while the voice collaborator reports no active playback — the track
finished, and the loop is still suspended in its `asyncio.sleep(1)` poll, so
`now_playing` has not yet been cleared.  This falsifies the invariant that
`now_playing` is non-empty only while the collaborator reports active
playback. -/
theorem c3_counterexample :
    (exec cexC3).now_playing = some tA ∧ (exec cexC3).voice.playing = false := by
  exact ⟨by decide, by decide⟩

theorem now_playing_step (s : GState) (a : Act)
    (hP : ∀ t, s.now_playing = some t → Ev.play t ∈ s.events) :
    ∀ t, (step s a).now_playing = some t → Ev.play t ∈ (step s a).events := by
  cases a with
  | enqueue t0 =>
    simp only [step]
    unfold enqueueP startP
    split <;> exact hP
  | start =>
    simp only [step]
    unfold startP
    split <;> exact hP
  | stop =>
    simp only [step]
    unfold stopP
    split
    · exact fun t ht => List.mem_append_left _ (hP t ht)
    · exact hP
  | runTask i =>
    simp only [step]
    unfold applyRun
    split
    · exact hP
    · unfold stepTask
      split
      · exact hP
      · split
        · exact hP
        · split
          · exact hP
          · split
            · exact hP
            · exact hP
          · split
            · split
              · split
                · intro t ht; exact Option.noConfusion ht
                · intro t ht
                  injection ht with h
                  subst h
                  exact List.mem_append_right _ (List.mem_singleton_self _)
              · split
                · intro t ht; exact Option.noConfusion ht
                · intro t ht; exact Option.noConfusion ht
            · split
              · split
                · intro t ht; exact List.mem_append_left _ (hP t ht)
                · exact hP
              · exact hP
          · split
            · exact hP
            · split
              · intro t ht; exact Option.noConfusion ht
              · intro t ht; exact Option.noConfusion ht
  | finishTrack => exact hP
  | connectVoice => exact hP
  | loseConn => exact hP
  | dropVoice => exact hP

/-- Claim C3 (amended): in every reachable state, `now_playing` is non-empty
only for a track that has actually been handed to the voice collaborator for
playback (a `play` call for that track appears in the trace); the collaborator
may however have already ceased reporting playback — `now_playing` stays set
until the loop's next poll step after the track ends, and indefinitely if the
loop was cancelled by `stop()` mid-track. -/
theorem c3_now_playing_amended : ∀ (acts : List Act) (t : Track),
    (exec acts).now_playing = some t → Ev.play t ∈ (exec acts).events := by
  intro acts
  exact foldl_inv (fun s => ∀ t, s.now_playing = some t → Ev.play t ∈ s.events)
    (fun t ht => by cases ht) now_playing_step acts

theorem c3_now_playing_amended_witness : Ev.play tA ∈ (exec cexC3).events :=
  c3_now_playing_amended cexC3 tA (by decide)

theorem runOnce_wait (np : Option Track) (evs : List Ev) (v : Voice) (k : Nat)
    (h : k + 1 < IDLE_TIMEOUT) :
    runOnce (waitS np evs v k) = waitS np evs v (k + 1) := by
  simp [runOnce, step, applyRun, stepTask, waitS, isDone, Nat.not_le.mpr h]

theorem runOnce_wait_iter :
    ∀ (n : Nat) (np : Option Track) (evs : List Ev) (v : Voice) (k : Nat),
      k + n < IDLE_TIMEOUT →
      runOnce^[n] (waitS np evs v k) = waitS np evs v (k + n) := by
  intro n
  induction n with
  | zero => intro np evs v k h; simp
  | succ m ih =>
    intro np evs v k h
    rw [Function.iterate_succ_apply, runOnce_wait np evs v k (by omega)]
    rw [ih np evs v (k + 1) (by omega)]
    congr 1
    omega

theorem runOnce_timeout_disc (np : Option Track) (evs : List Ev) (b : Bool)
    (k : Nat) (h : IDLE_TIMEOUT ≤ k + 1) :
    runOnce (waitS np evs ⟨true, b, false⟩ k) =
      { queue := [], now_playing := np, tasks := [⟨.done, false⟩],
        stopped := false, voice := ⟨false, false, false⟩,
        events := evs ++ [Ev.disconnect] } := by
  simp [runOnce, step, applyRun, stepTask, waitS, isDone, h]

theorem runOnce_timeout_novc (np : Option Track) (evs : List Ev) (b p : Bool)
    (k : Nat) (h : IDLE_TIMEOUT ≤ k + 1) :
    runOnce (waitS np evs ⟨false, b, p⟩ k) =
      { queue := [], now_playing := np, tasks := [⟨.done, false⟩],
        stopped := false, voice := ⟨false, b, p⟩, events := evs } := by
  simp [runOnce, step, applyRun, stepTask, waitS, isDone, h]

/-- Claim C5: a Player whose queue stays empty for the configured idle timeout
(300 time units) while no playback is active sees its loop exit; the voice
collaborator receives exactly one `disconnect` call when a voice client
exists (and none when it does not); and a later `enqueue` restarts the loop
(a fresh task is created, the stop flag is clear, and the new track is
queued). -/
theorem c5_idle_timeout :
    ∀ (np : Option Track) (evs : List Ev) (b p : Bool) (t : Track),
      (runOnce^[IDLE_TIMEOUT] (waitS np evs ⟨true, b, false⟩ 0)).tasks = [⟨.done, false⟩]
      ∧ (runOnce^[IDLE_TIMEOUT] (waitS np evs ⟨true, b, false⟩ 0)).events
          = evs ++ [Ev.disconnect]
      ∧ (step (runOnce^[IDLE_TIMEOUT] (waitS np evs ⟨true, b, false⟩ 0)) (Act.enqueue t)).tasks
          = [⟨.done, false⟩, ⟨.loopTop, false⟩]
      ∧ (step (runOnce^[IDLE_TIMEOUT] (waitS np evs ⟨true, b, false⟩ 0)) (Act.enqueue t)).queue
          = [t]
      ∧ (step (runOnce^[IDLE_TIMEOUT] (waitS np evs ⟨true, b, false⟩ 0)) (Act.enqueue t)).stopped
          = false
      ∧ (runOnce^[IDLE_TIMEOUT] (waitS np evs ⟨false, b, p⟩ 0)).tasks = [⟨.done, false⟩]
      ∧ (runOnce^[IDLE_TIMEOUT] (waitS np evs ⟨false, b, p⟩ 0)).events = evs := by
  intro np evs b p t
  have hsplit : IDLE_TIMEOUT = 299 + 1 := by decide
  have hvc : runOnce^[IDLE_TIMEOUT] (waitS np evs ⟨true, b, false⟩ 0)
      = { queue := [], now_playing := np, tasks := [⟨.done, false⟩],
          stopped := false, voice := ⟨false, false, false⟩,
          events := evs ++ [Ev.disconnect] } := by
    rw [hsplit, Function.iterate_succ_apply',
        runOnce_wait_iter 299 np evs ⟨true, b, false⟩ 0 (by decide)]
    exact runOnce_timeout_disc np evs b 299 (by decide)
  have hnovc : runOnce^[IDLE_TIMEOUT] (waitS np evs ⟨false, b, p⟩ 0)
      = { queue := [], now_playing := np, tasks := [⟨.done, false⟩],
          stopped := false, voice := ⟨false, b, p⟩, events := evs } := by
    rw [hsplit, Function.iterate_succ_apply',
        runOnce_wait_iter 299 np evs ⟨false, b, p⟩ 0 (by decide)]
    exact runOnce_timeout_novc np evs b p 299 (by decide)
  rw [hvc, hnovc]
  refine ⟨rfl, rfl, ?_, ?_, ?_, rfl, rfl⟩ <;>
    simp [step, enqueueP, startP, lastDone, isDone]

/-- Claim C6: when the loop dequeues a track and no live voice connection
exists for the guild (no voice client, or one that is not connected), the
track is discarded silently: it is never handed to the audio collaborator
(no `play` call is recorded, and no error is raised — the model has no error
outcome on this path), `now_playing` ends empty, and the loop returns to
waiting for the next track. -/
theorem c6_discard_no_connection :
    ∀ (np : Option Track) (evs : List Ev) (v : Voice) (k : Nat) (t : Track)
      (rest : List Track),
      v.hasVc = false ∨ v.connected = false →
      step (recvS np evs v k t rest) (Act.runTask 0) =
        { queue := rest, now_playing := none, tasks := [⟨.waiting 0, false⟩],
          stopped := false, voice := v, events := evs } := by
  intro np evs v k t rest h
  have hcond : (v.hasVc && v.connected) = false := by
    rcases h with h | h <;> simp [h]
  simp [step, applyRun, stepTask, recvS, isDone, hcond]

theorem c6_discard_no_connection_witness :
    step (recvS none [] ⟨true, false, false⟩ 7 tA []) (Act.runTask 0) =
      { queue := [], now_playing := none, tasks := [⟨.waiting 0, false⟩],
        stopped := false, voice := ⟨true, false, false⟩, events := [] } :=
  c6_discard_no_connection none [] ⟨true, false, false⟩ 7 tA [] (Or.inr rfl)

theorem lookup_append_none {β : Type} (l : List (Nat × β)) (g : Nat) (x : β)
    (h : l.lookup g = none) : (l ++ [(g, x)]).lookup g = some x := by
  induction l with
  | nil => simp [List.lookup]
  | cons p rest ih =>
    obtain ⟨k, b⟩ := p
    by_cases hk : g == k
    · simp [List.lookup, hk] at h
    · rw [List.cons_append]
      simp only [List.lookup, hk] at h ⊢
      exact ih h

/-- Claim C7: for every guild id, `get_player` called twice with the same
guild id returns the identical Player object (same allocation serial — never
two distinct Players for one guild) and leaves the registry unchanged on the
second call; on first use it creates and stores a freshly constructed empty
Player; and the operation never removes a registry entry (the table only
grows by appending). -/
theorem c7_registry :
    ∀ (g : Nat) (r : Registry),
      (get_player g (get_player g r).2).1 = (get_player g r).1
      ∧ (get_player g (get_player g r).2).2 = (get_player g r).2
      ∧ (∃ ext, (get_player g r).2.table = r.table ++ ext)
      ∧ (r.table.lookup g = none → (get_player g r).1 = ⟨r.nextSerial, init⟩) := by
  intro g r
  by_cases h : r.table.lookup g = none
  · have h2 : ((r.table ++ [(g, (⟨r.nextSerial, init⟩ : RegEntry))]).lookup g)
        = some ⟨r.nextSerial, init⟩ := lookup_append_none r.table g _ h
    have h1 : get_player g r = (⟨r.nextSerial, init⟩,
        ⟨r.table ++ [(g, ⟨r.nextSerial, init⟩)], r.nextSerial + 1⟩) := by
      simp [get_player, h]
    refine ⟨?_, ?_, ⟨[(g, ⟨r.nextSerial, init⟩)], by rw [h1]⟩, fun _ => by rw [h1]⟩
    · rw [h1]
      simp [get_player, h2]
    · rw [h1]
      simp [get_player, h2]
  · obtain ⟨e, he⟩ := Option.ne_none_iff_exists'.mp h
    have h1 : get_player g r = (e, r) := by simp [get_player, he]
    refine ⟨?_, ?_, ⟨[], by simp [h1]⟩, fun hn => absurd hn h⟩ <;> simp [h1]

theorem c7_registry_witness :
    (get_player 7 ⟨[], 0⟩).1 = ⟨0, init⟩
    ∧ (get_player 7 (get_player 7 ⟨[], 0⟩).2).1 = (get_player 7 ⟨[], 0⟩).1 := by
  exact ⟨(c7_registry 7 ⟨[], 0⟩).2.2.2 (by decide), (c7_registry 7 ⟨[], 0⟩).1⟩

/-- Claim C8: the playback loop never terminates because of a single bad
track: if a live, uncancelled loop task's step finishes the task, then either
stop was requested (cancellation pending or the stop flag set) or the idle
timeout fired on an empty queue — a mid-track failure of the audio
collaborator (playback ceasing without the stop flag) is treated exactly as
natural completion: the loop clears `now_playing`, leaves the queue
untouched (no retry of the failed track), and goes back to waiting for the
next track. -/
theorem c8_loop_resilient :
    ∀ (s : GState) (tr : TaskRec),
      isDone tr = false →
      ((isDone (stepTask s tr).2 = true →
          tr.cancelReq = true ∨ s.stopped = true ∨
          ∃ idle, tr.phase = TaskPhase.waiting idle ∧ s.queue = []
            ∧ IDLE_TIMEOUT ≤ idle + 1)
      ∧ ∀ t, tr.phase = TaskPhase.polling t → tr.cancelReq = false →
          s.voice.playing = false → s.stopped = false →
          stepTask s tr = ({ s with now_playing := none },
                           { tr with phase := TaskPhase.waiting 0 })) := by
  intro s tr hlive
  constructor
  · intro hdone
    by_cases hcr : tr.cancelReq = true
    · exact Or.inl hcr
    · cases hph : tr.phase with
      | done => simp [isDone, hph] at hlive
      | loopTop =>
        by_cases hst : s.stopped = true
        · exact Or.inr (Or.inl hst)
        · simp [stepTask, hlive, hcr, hph, hst, isDone] at hdone
      | waiting idle =>
        cases hq : s.queue with
        | nil =>
          by_cases htm : IDLE_TIMEOUT ≤ idle + 1
          · exact Or.inr (Or.inr ⟨idle, rfl, rfl, htm⟩)
          · simp [stepTask, hlive, hcr, hph, hq, htm, isDone] at hdone
        | cons t0 rest =>
          by_cases hst : s.stopped = true
          · exact Or.inr (Or.inl hst)
          · by_cases hco : (s.voice.hasVc && s.voice.connected) = true
            · simp [stepTask, hlive, hcr, hph, hq, hst, hco, isDone] at hdone
            · simp [stepTask, hlive, hcr, hph, hq, hst, hco, isDone] at hdone
      | polling t0 =>
        by_cases hst : s.stopped = true
        · exact Or.inr (Or.inl hst)
        · by_cases hpl : s.voice.playing = true
          · simp [stepTask, hlive, hcr, hph, hst, hpl, isDone] at hdone
          · simp [stepTask, hlive, hcr, hph, hst, hpl, isDone] at hdone
  · intro t hph hcr hvp hst
    simp [stepTask, hlive, hcr, hph, hvp, hst]

theorem c8_loop_resilient_witness :
    ((⟨TaskPhase.loopTop, false⟩ : TaskRec).cancelReq = true ∨ s8a.stopped = true ∨
      ∃ idle, (⟨TaskPhase.loopTop, false⟩ : TaskRec).phase = TaskPhase.waiting idle
        ∧ s8a.queue = [] ∧ IDLE_TIMEOUT ≤ idle + 1)
    ∧ stepTask s8b ⟨TaskPhase.polling tA, false⟩
        = ({ s8b with now_playing := none }, ⟨TaskPhase.waiting 0, false⟩) := by
  exact ⟨(c8_loop_resilient s8a ⟨TaskPhase.loopTop, false⟩ (by decide)).1 (by decide),
         (c8_loop_resilient s8b ⟨TaskPhase.polling tA, false⟩ (by decide)).2
           tA rfl rfl rfl rfl⟩

/-- Claim C9 counterexample: `stop()` followed immediately by `enqueue(D)`
does not have a single deterministic outcome.  In the first interleaving the
cancelled loop task is not yet finished when `enqueue` runs, so `start`'s
`done()` guard fails, no new loop is created, and D is never handed to the
collaborator (it stays in the queue with no live loop); in the second
interleaving the cancellation has been processed first, so a fresh loop
starts and D plays.  Both runs perform the same two calls back to back; the
observed play traces differ. -/
theorem c9_counterexample :
    played (exec run1C9) = [tA]
    ∧ (exec run1C9).queue = [tD]
    ∧ liveCount (exec run1C9).tasks = 0
    ∧ played (exec run2C9) = [tA, tD] := by
  exact ⟨by decide, by decide, by decide, by decide⟩

theorem startP_events (s : GState) : (startP s).events = s.events := by
  unfold startP
  split <;> rfl

theorem stopP_stopped (s : GState) : (stopP s).stopped = true := by
  unfold stopP
  split <;> rfl

theorem stopP_queue (s : GState) : (stopP s).queue = [] := by
  unfold stopP
  split <;> rfl

theorem stopP_dCount (s : GState) : dCount (stopP s).events = dCount s.events := by
  unfold stopP
  split <;> simp [dCount, List.filter_append, isDisc]

theorem stopP_voice_hasVc (s : GState) : (stopP s).voice.hasVc = s.voice.hasVc := by
  unfold stopP
  split <;> rfl

theorem stopP_voice_connected (s : GState) :
    (stopP s).voice.connected = s.voice.connected := by
  unfold stopP
  split <;> rfl

/-- Claim C9 (amended): the outcome of `stop()` followed immediately by
`enqueue(track)` is determined by whether the event loop has finalized the
cancelled loop task in between — it is scheduling-dependent, not a single
fixed policy.  If the referenced task is not yet done when `enqueue` runs,
the auto-start is a no-op: no new loop is created, the stop flag stays set,
and the track merely sits in the queue; if the task has finished, a fresh
loop task is created, the stop flag is cleared, and the track is queued for
a brand-new session. -/
theorem c9_stop_enqueue_amended :
    ∀ (s : GState) (t : Track),
      (lastDone (step s Act.stop).tasks = false →
        (step (step s Act.stop) (Act.enqueue t)).tasks = (step s Act.stop).tasks
        ∧ (step (step s Act.stop) (Act.enqueue t)).queue = [t]
        ∧ (step (step s Act.stop) (Act.enqueue t)).stopped = true)
      ∧ (lastDone (step s Act.stop).tasks = true →
        (step (step s Act.stop) (Act.enqueue t)).tasks
          = (step s Act.stop).tasks ++ [⟨.loopTop, false⟩]
        ∧ (step (step s Act.stop) (Act.enqueue t)).queue = [t]
        ∧ (step (step s Act.stop) (Act.enqueue t)).stopped = false) := by
  intro s t
  constructor
  · intro h
    simp only [step] at h
    refine ⟨?_, ?_, ?_⟩ <;>
      simp [step, enqueueP, startP, h, stopP_queue, stopP_stopped]
  · intro h
    simp only [step] at h
    refine ⟨?_, ?_, ?_⟩ <;>
      simp [step, enqueueP, startP, h, stopP_queue, stopP_stopped]

theorem c9_stop_enqueue_amended_witness :
    ((step (step (exec commonC9) Act.stop) (Act.enqueue tD)).tasks
        = (step (exec commonC9) Act.stop).tasks
      ∧ (step (step (exec commonC9) Act.stop) (Act.enqueue tD)).queue = [tD]
      ∧ (step (step (exec commonC9) Act.stop) (Act.enqueue tD)).stopped = true)
    ∧ ((step (step init Act.stop) (Act.enqueue tD)).tasks
        = (step init Act.stop).tasks ++ [⟨.loopTop, false⟩]
      ∧ (step (step init Act.stop) (Act.enqueue tD)).queue = [tD]
      ∧ (step (step init Act.stop) (Act.enqueue tD)).stopped = false) := by
  exact ⟨(c9_stop_enqueue_amended (exec commonC9) tD).1 (by decide),
         (c9_stop_enqueue_amended init tD).2 (by decide)⟩

/-- Claim C10: `stop()` never disconnects the voice connection — the voice
client's existence and connected state after `stop` are exactly what they
were before (only in-progress audio is halted and the queue drained), `stop`
issues no `disconnect` call; and the only action of the Player that ever
issues a `disconnect` is a scheduler step of a loop task sitting in the
idle-timeout branch (uncancelled, waiting past the timeout on an empty
queue, with a voice client present and not playing). -/
theorem c10_stop_never_disconnects :
    ∀ s : GState,
      (step s Act.stop).voice.hasVc = s.voice.hasVc
      ∧ (step s Act.stop).voice.connected = s.voice.connected
      ∧ dCount (step s Act.stop).events = dCount s.events
      ∧ ∀ a : Act, dCount (step s a).events ≠ dCount s.events →
          ∃ i tr idle, a = Act.runTask i ∧ s.tasks[i]? = some tr
            ∧ tr.cancelReq = false ∧ tr.phase = TaskPhase.waiting idle
            ∧ s.queue = [] ∧ IDLE_TIMEOUT ≤ idle + 1
            ∧ s.voice.hasVc = true ∧ s.voice.playing = false := by
  intro s
  refine ⟨stopP_voice_hasVc s, stopP_voice_connected s, stopP_dCount s, ?_⟩
  intro a h
  cases a with
  | enqueue t =>
    exfalso
    apply h
    show dCount (enqueueP t s).events = dCount s.events
    unfold enqueueP
    rw [startP_events]
  | start =>
    exfalso
    apply h
    show dCount (startP s).events = dCount s.events
    rw [startP_events]
  | stop => exact absurd (stopP_dCount s) h
  | finishTrack => exact absurd rfl h
  | connectVoice => exact absurd rfl h
  | loseConn => exact absurd rfl h
  | dropVoice => exact absurd rfl h
  | runTask i =>
    cases hget : s.tasks[i]? with
    | none =>
      exfalso
      apply h
      show dCount (applyRun s i).events = dCount s.events
      unfold applyRun
      rw [hget]
    | some tr =>
      have happ : applyRun s i
          = { (stepTask s tr).1 with tasks := s.tasks.set i (stepTask s tr).2 } := by
        unfold applyRun
        rw [hget]
      have h2 : dCount (stepTask s tr).1.events ≠ dCount s.events := by
        intro hE
        apply h
        show dCount (applyRun s i).events = dCount s.events
        rw [happ]
        exact hE
      by_cases hd : isDone tr = true
      · rw [stepTask_of_done s tr hd] at h2
        exact absurd rfl h2
      · have hlive : isDone tr = false := by
          cases hdd : isDone tr
          · rfl
          · exact absurd hdd hd
        by_cases hcr : tr.cancelReq = true
        · simp [stepTask, hlive, hcr] at h2
        · cases hph : tr.phase with
          | done => simp [isDone, hph] at hlive
          | loopTop =>
            by_cases hst : s.stopped = true <;>
              simp [stepTask, hlive, hcr, hph, hst] at h2
          | waiting idle =>
            cases hq : s.queue with
            | nil =>
              by_cases htm : IDLE_TIMEOUT ≤ idle + 1
              · by_cases hvw : (s.voice.hasVc && !s.voice.playing) = true
                · rcases Bool.and_eq_true_iff.mp hvw with ⟨h1, h2p⟩
                  have hpl : s.voice.playing = false := by simpa using h2p
                  exact ⟨i, tr, idle, rfl, hget, by simpa using hcr, hph, rfl,
                         htm, h1, hpl⟩
                · simp [stepTask, hlive, hcr, hph, hq, htm, hvw] at h2
              · simp [stepTask, hlive, hcr, hph, hq, htm] at h2
            | cons t0 rest =>
              by_cases hco : (s.voice.hasVc && s.voice.connected) = true
              · by_cases hst : s.stopped = true <;>
                  simp [stepTask, hlive, hcr, hph, hq, hco, hst, dCount,
                        List.filter_append, isDisc] at h2
              · by_cases hst : s.stopped = true <;>
                  simp [stepTask, hlive, hcr, hph, hq, hco, hst] at h2
          | polling t0 =>
            by_cases hpl : (s.voice.playing && !s.stopped) = true
            · simp [stepTask, hlive, hcr, hph, hpl] at h2
            · by_cases hst : s.stopped = true
              · simp [stepTask, hlive, hcr, hph, hpl, hst] at h2
              · have hpl2 : s.voice.playing = false := by
                  simpa [hst] using hpl
                simp [stepTask, hlive, hcr, hph, hst, hpl2] at h2

theorem c10_stop_never_disconnects_witness :
    ∃ i tr idle, Act.runTask 0 = Act.runTask i
      ∧ (waitS none [] ⟨true, true, false⟩ 299).tasks[i]? = some tr
      ∧ tr.cancelReq = false ∧ tr.phase = TaskPhase.waiting idle
      ∧ (waitS none [] ⟨true, true, false⟩ 299).queue = []
      ∧ IDLE_TIMEOUT ≤ idle + 1
      ∧ (waitS none [] ⟨true, true, false⟩ 299).voice.hasVc = true
      ∧ (waitS none [] ⟨true, true, false⟩ 299).voice.playing = false :=
  (c10_stop_never_disconnects (waitS none [] ⟨true, true, false⟩ 299)).2.2.2
    (Act.runTask 0) (by decide)
